import Mathlib

/-!
# HORIZONS.jl, `deps/libexjl.c`: `exjl_set_cloexec` and `exjl_sendeof`

A shallow embedding of the two C functions of `libexjl.c`.

Both functions are straight-line sequences of calls into the operating
system (`ioctl`, `tcgetattr`, `tcsetattr`, `write`, `tcdrain`) and into the
host runtime (`uv_fileno`).  None of these is defined in the repository, so
the embedding takes them as a record `Sys σ` of state-passing functions over
an arbitrary environment state `σ`: every theorem that quantifies over
`Sys σ` holds for every behaviour of the environment.  Each embedded
function returns its C result together with the list of calls it issued, in
program order, and the final environment state.

Constants and types of `<termios.h>` / `<sys/ioctl.h>` (`ICANON`, `ECHO`,
`ECHONL`, `VEOF`, `TCSADRAIN`, `FIOCLEX`, the width of `tcflag_t`) are
platform-specific and are taken as the parameter `TermiosConsts`.
-/

namespace Exjl

/-! ## Data model -/

/-- The `void*` handle handed to `exjl_sendeof`, an opaque address. -/
abbrev Handle := Nat

/-- The C `struct termios`: the four flag words (`tcflag_t`, unsigned), the
control-character table `c_cc` (entries of type `cc_t`, a byte) and the
remaining platform-specific members (`c_line`, speeds) in `other`. -/
structure termios where
  c_iflag : Nat
  c_oflag : Nat
  c_cflag : Nat
  c_lflag : Nat
  c_cc : List Nat
  other : List Nat
deriving DecidableEq

/-- The header constants used by `libexjl.c`.  `tcflag_bits` is the width of
`tcflag_t`; the flag constants are non-negative `int` constants. -/
structure TermiosConsts where
  tcflag_bits : Nat
  ICANON : Nat
  ECHO : Nat
  ECHONL : Nat
  VEOF : Nat
  TCSADRAIN : Int
  FIOCLEX : Nat
deriving DecidableEq

/-- The values of the constants on Linux (asm-generic). -/
def linuxConsts : TermiosConsts :=
  { tcflag_bits := 32, ICANON := 2, ECHO := 8, ECHONL := 64, VEOF := 4,
    TCSADRAIN := 1, FIOCLEX := 21585 }

/-- The environment: every external function called by `libexjl.c`, as a
state-passing function.  Out-parameters are returned next to the result:
`uv_fileno` yields `(result, fd, state)`, `tcgetattr` yields
`(result, contents of the buffer, state)`.  `write fd bytes count` yields
the `ssize_t` result. -/
structure Sys (σ : Type) where
  uv_fileno : Handle → σ → Int × Int × σ
  tcgetattr : Int → σ → Int × termios × σ
  tcsetattr : Int → Int → termios → σ → Int × σ
  write : Int → List Nat → Nat → σ → Int × σ
  tcdrain : Int → σ → Int × σ
  ioctl : Int → Nat → σ → Int × σ

/-- One external call, with its arguments and what it returned. -/
inductive Event where
  | uv_fileno (tty : Handle) (ret : Int) (fd : Int)
  | tcgetattr (fd : Int) (ret : Int) (buf : termios)
  | tcsetattr (fd : Int) (action : Int) (buf : termios) (ret : Int)
  | write (fd : Int) (bytes : List Nat) (count : Nat) (ret : Int)
  | tcdrain (fd : Int) (ret : Int)
  | ioctl (fd : Int) (request : Nat) (ret : Int)
deriving DecidableEq

/-- Which external function an event is a call of. -/
inductive Kind where
  | uv_fileno | tcgetattr | tcsetattr | write | tcdrain | ioctl
deriving DecidableEq

/-- The function called by an event. -/
def Event.kind : Event → Kind
  | .uv_fileno _ _ _ => .uv_fileno
  | .tcgetattr _ _ _ => .tcgetattr
  | .tcsetattr _ _ _ _ => .tcsetattr
  | .write _ _ _ _ => .write
  | .tcdrain _ _ => .tcdrain
  | .ioctl _ _ _ => .ioctl

/-- The value returned by the call of an event. -/
def Event.ret : Event → Int
  | .uv_fileno _ r _ => r
  | .tcgetattr _ r _ => r
  | .tcsetattr _ _ _ r => r
  | .write _ _ _ r => r
  | .tcdrain _ r => r
  | .ioctl _ _ r => r

/-- The result of running one exported function: its C return value, the
calls it issued in program order, and the environment state it leaves. -/
structure Outcome (σ : Type) where
  ret : Int
  trace : List Event
  state : σ
deriving DecidableEq

/-! ## C arithmetic -/

/-- Conversion of a signed value to an unsigned type of `w` bits. -/
def toUnsigned (w : Nat) (x : Int) : Nat := (x % (2 : Int) ^ w).toNat

/-- Bitwise complement `~m` of a non-negative `int` (two's complement). -/
def bnot_int (m : Nat) : Int := -(m : Int) - 1

/-- Conversion of the `ssize_t` result of `write` to the 32-bit `int ret`. -/
def toInt32 (x : Int) : Int := (x + 2147483648) % 4294967296 - 2147483648

/-! ## The embedded functions -/

/-- `exjl_set_cloexec`, line 12-15: `return ioctl(fd, FIOCLEX);`. -/
def exjl_set_cloexec {σ : Type} (K : TermiosConsts) (W : Sys σ) (fd : Int) (s : σ) :
    Outcome σ :=
  let r := W.ioctl fd K.FIOCLEX s
  { ret := r.1, trace := [Event.ioctl fd K.FIOCLEX r.1], state := r.2 }

/-- The condition of the `if` on line 31:
`!(buf.c_lflag & ICANON) || (buf.c_lflag & (ECHO | ECHONL))`. -/
def needs_rewrite (K : TermiosConsts) (buf : termios) : Bool :=
  (buf.c_lflag &&& K.ICANON == 0) || (buf.c_lflag &&& (K.ECHO ||| K.ECHONL) != 0)

/-- Lines 34-35 on the flag word:
`c_lflag |= ICANON; c_lflag &= ~(ECHO | ECHONL);` in `tcflag_t` arithmetic. -/
def force_lflag (K : TermiosConsts) (l : Nat) : Nat :=
  let l1 := (l ||| K.ICANON) % 2 ^ K.tcflag_bits
  (l1 &&& toUnsigned K.tcflag_bits (bnot_int (K.ECHO ||| K.ECHONL))) % 2 ^ K.tcflag_bits

/-- Lines 34-35 on the buffer: only `c_lflag` is assigned. -/
def force_canon (K : TermiosConsts) (buf : termios) : termios :=
  { buf with c_lflag := force_lflag K buf.c_lflag }

/-- Lines 40-47: build `seq`, write it, drain.  `buf` is the local buffer as
it stands when line 40 is reached, `tr` the calls issued so far. -/
def send_seq {σ : Type} (K : TermiosConsts) (W : Sys σ) (fd : Int) (buf : termios)
    (tr : List Event) (s : σ) : Outcome σ :=
  let seq : List Nat := [10, buf.c_cc.getD K.VEOF 0 % 256]
  let w := W.write fd seq 2 s
  let ret := toInt32 w.1
  let tr1 := tr ++ [Event.write fd seq 2 w.1]
  if ret ≠ 2 then { ret := -1, trace := tr1, state := w.2 }
  else
    let d := W.tcdrain fd w.2
    { ret := 0, trace := tr1 ++ [Event.tcdrain fd d.1], state := d.2 }

/-- `exjl_sendeof`, lines 18-48. -/
def exjl_sendeof {σ : Type} (K : TermiosConsts) (W : Sys σ) (tty : Handle) (s0 : σ) :
    Outcome σ :=
  let u := W.uv_fileno tty s0
  let fd := u.2.1
  let tr1 := [Event.uv_fileno tty u.1 fd]
  if u.1 ≠ 0 then { ret := -1, trace := tr1, state := u.2.2 }
  else
    let g := W.tcgetattr fd u.2.2
    let buf := g.2.1
    let tr2 := tr1 ++ [Event.tcgetattr fd g.1 buf]
    if g.1 ≠ 0 then { ret := -1, trace := tr2, state := g.2.2 }
    else if needs_rewrite K buf then
      let buf1 := force_canon K buf
      let t := W.tcsetattr fd K.TCSADRAIN buf1 g.2.2
      let tr3 := tr2 ++ [Event.tcsetattr fd K.TCSADRAIN buf1 t.1]
      if t.1 ≠ 0 then { ret := -1, trace := tr3, state := t.2 }
      else send_seq K W fd buf1 tr3 t.2
    else send_seq K W fd buf tr2 g.2.2

/-! ## Predicates of the specification -/

/-- The predicate of the specification on an attribute value: `ICANON` set,
`ECHO` clear and `ECHONL` clear in the local-mode flags. -/
def CanonNoEcho (K : TermiosConsts) (t : termios) : Prop :=
  t.c_lflag &&& K.ICANON ≠ 0 ∧ t.c_lflag &&& K.ECHO = 0 ∧ t.c_lflag &&& K.ECHONL = 0

instance (K : TermiosConsts) (t : termios) : Decidable (CanonNoEcho K t) := by
  unfold CanonNoEcho; infer_instance

/-- The three flag constants are distinct single bits of `tcflag_t`. -/
def TermiosConsts.DistinctFlagBits (K : TermiosConsts) : Prop :=
  ∃ a b c : Nat, K.ICANON = 2 ^ a ∧ K.ECHO = 2 ^ b ∧ K.ECHONL = 2 ^ c ∧
    a ≠ b ∧ a ≠ c ∧ b ≠ c ∧
    a < K.tcflag_bits ∧ b < K.tcflag_bits ∧ c < K.tcflag_bits

/-- A value fits the C type `int` (32 bits). -/
def FitsInt (x : Int) : Prop := -2147483648 ≤ x ∧ x ≤ 2147483647

instance (x : Int) : Decidable (FitsInt x) := by
  unfold FitsInt; infer_instance

/-- A failed reconfiguration or write step: a `tcsetattr` call that returned
nonzero, or a `write` call that returned anything but 2. -/
def Event.failedStep (e : Event) : Prop :=
  (e.kind = Kind.tcsetattr ∧ e.ret ≠ 0) ∨ (e.kind = Kind.write ∧ e.ret ≠ 2)

instance (e : Event) : Decidable e.failedStep := by
  unfold Event.failedStep; infer_instance

/-- A model of where the kernel keeps terminal attributes: `attrs s fd` is
the attribute value of descriptor `fd` in state `s` (`none` when `fd` is not
a terminal).  Only a successful `tcsetattr` changes it, to the value it was
handed; the other calls leave every descriptor's attributes alone. -/
structure AttrModel {σ : Type} (W : Sys σ) (attrs : σ → Int → Option termios) : Prop where
  uv_fileno_frame : ∀ h s, attrs (W.uv_fileno h s).2.2 = attrs s
  tcgetattr_frame : ∀ fd s, attrs (W.tcgetattr fd s).2.2 = attrs s
  tcsetattr_applies : ∀ fd a t s, (W.tcsetattr fd a t s).1 = 0 →
    attrs (W.tcsetattr fd a t s).2 fd = some t
  write_frame : ∀ fd b n s, attrs (W.write fd b n s).2 = attrs s
  tcdrain_frame : ∀ fd s, attrs (W.tcdrain fd s).2 = attrs s

/-! ## Reference environments -/

/-- A scripted environment: each external function answers with the value
fixed in the script, whatever its arguments; the state is trivial. -/
structure Script where
  fileno_ret : Int
  fd : Int
  getattr_ret : Int
  attrs : termios
  setattr_ret : Int
  write_ret : Int
  drain_ret : Int
  ioctl_ret : Int
deriving DecidableEq

/-- The environment that plays a script. -/
def scriptSys (c : Script) : Sys Unit where
  uv_fileno := fun _ s => (c.fileno_ret, c.fd, s)
  tcgetattr := fun _ s => (c.getattr_ret, c.attrs, s)
  tcsetattr := fun _ _ _ s => (c.setattr_ret, s)
  write := fun _ _ _ s => (c.write_ret, s)
  tcdrain := fun _ s => (c.drain_ret, s)
  ioctl := fun _ _ s => (c.ioctl_ret, s)

/-- A raw-mode terminal (Linux flag values): `ICANON`, `ECHO`, `ECHONL` all
clear, `VEOF` (slot 4) holding `0x1A`. -/
def rawAttrs : termios :=
  { c_iflag := 1280, c_oflag := 5, c_cflag := 191, c_lflag := 35376,
    c_cc := [3, 28, 127, 21, 26, 0, 1, 0, 17, 19, 26, 0, 18, 15, 23, 22, 0],
    other := [0, 15, 15] }

/-- A canonical terminal with echo off: `ICANON` set, `ECHO` and `ECHONL`
clear, `VEOF` holding `0x04`. -/
def cookedAttrs : termios :=
  { c_iflag := 1280, c_oflag := 5, c_cflag := 191, c_lflag := 35378,
    c_cc := [3, 28, 127, 21, 4, 0, 1, 0, 17, 19, 26, 0, 18, 15, 23, 22, 0],
    other := [0, 15, 15] }

/-- The script in which every call succeeds on descriptor 5 of a raw-mode
terminal. -/
def okScript : Script :=
  { fileno_ret := 0, fd := 5, getattr_ret := 0, attrs := rawAttrs, setattr_ret := 0,
    write_ret := 2, drain_ret := 0, ioctl_ret := 0 }

/-- An open file description as the reference kernel sees it: the
close-on-exec flag, the terminal attributes (`none` for a non-terminal) and
the bytes written to it so far. -/
structure File where
  cloexec : Bool
  attrs : Option termios
  data : List Nat
deriving DecidableEq

/-- The state of the reference kernel: the host's handle registry and the
descriptor table. -/
structure Kernel where
  handles : Handle → Option Int
  fds : Int → Option File

/-- An all-zero attribute buffer. -/
def zeroAttrs : termios :=
  { c_iflag := 0, c_oflag := 0, c_cflag := 0, c_lflag := 0, c_cc := [], other := [] }

/-- A reference kernel in which every call on an open terminal succeeds:
`tcsetattr` stores the attributes, `write` appends the bytes, and
`ioctl(fd, FIOCLEX)` sets the close-on-exec flag of an open descriptor.
Calls on a closed descriptor, terminal calls on a non-terminal and other
`ioctl` requests fail with `-1` and change nothing. -/
def kernelSys (K : TermiosConsts) : Sys Kernel where
  uv_fileno := fun h s =>
    match s.handles h with
    | some fd => (0, fd, s)
    | none => (-9, 0, s)
  tcgetattr := fun fd s =>
    match s.fds fd with
    | some f =>
      match f.attrs with
      | some t => (0, t, s)
      | none => (-1, zeroAttrs, s)
    | none => (-1, zeroAttrs, s)
  tcsetattr := fun fd _ t s =>
    match s.fds fd with
    | some f =>
      match f.attrs with
      | some _ =>
        let f1 : File := { f with attrs := some t }
        (0, { s with fds := Function.update s.fds fd (some f1) })
      | none => (-1, s)
    | none => (-1, s)
  write := fun fd bytes n s =>
    match s.fds fd with
    | some f =>
      let f1 : File := { f with data := f.data ++ bytes.take n }
      ((n : Int), { s with fds := Function.update s.fds fd (some f1) })
    | none => (-1, s)
  tcdrain := fun fd s =>
    match s.fds fd with
    | some f => (if f.attrs.isSome then 0 else -1, s)
    | none => (-1, s)
  ioctl := fun fd req s =>
    if req = K.FIOCLEX then
      match s.fds fd with
      | some f =>
        let f1 : File := { f with cloexec := true }
        (0, { s with fds := Function.update s.fds fd (some f1) })
      | none => (-1, s)
    else (-1, s)

/-- The attributes of descriptor `fd` in the reference kernel. -/
def Kernel.attrsOf (s : Kernel) (fd : Int) : Option termios :=
  match s.fds fd with
  | some f => f.attrs
  | none => none

/-- A kernel state with one pty master: handle 7 resolves to descriptor 5, a
raw-mode terminal without close-on-exec. -/
def ptyKernel : Kernel where
  handles := fun h => if h = 7 then some 5 else none
  fds := fun fd => if fd = 5 then some { cloexec := false, attrs := some rawAttrs, data := [] }
    else none

/-- A kernel state in which handle 7 resolves to descriptor 5, a regular
file holding three bytes (not a terminal). -/
def fileKernel : Kernel where
  handles := fun h => if h = 7 then some 5 else none
  fds := fun fd => if fd = 5 then some { cloexec := false, attrs := none, data := [104, 105, 10] }
    else none

/-! ## Arithmetic lemmas -/

theorem toInt32_of_fits (x : Int) (h : FitsInt x) : toInt32 x = x := by
  unfold FitsInt at h
  unfold toInt32
  omega

theorem toInt32_eq_two_fits (x : Int) (h : toInt32 x = 2) (hx : FitsInt x) : x = 2 := by
  rwa [toInt32_of_fits x hx] at h

theorem toUnsigned_bnot_int (w m : Nat) :
    toUnsigned w (bnot_int m) = 2 ^ w - (m % 2 ^ w + 1) := by
  have hpos : 0 < 2 ^ w := Nat.two_pow_pos _
  have hlt : m % 2 ^ w < 2 ^ w := Nat.mod_lt _ hpos
  have hm : (m : Int) = ((2 ^ w : Nat) : Int) * ((m / 2 ^ w : Nat) : Int)
      + ((m % 2 ^ w : Nat) : Int) := by
    exact_mod_cast (Nat.div_add_mod m (2 ^ w)).symm
  have hcast : ((2 : Int) ^ w) = ((2 ^ w : Nat) : Int) := by push_cast; rfl
  unfold toUnsigned bnot_int
  rw [hcast]
  have key : (-(m : Int) - 1)
      = ((2 ^ w - (m % 2 ^ w + 1) : Nat) : Int)
        + ((2 ^ w : Nat) : Int) * (-((m / 2 ^ w : Nat) : Int) - 1) := by
    have hsub : ((2 ^ w - (m % 2 ^ w + 1) : Nat) : Int)
        = ((2 ^ w : Nat) : Int) - (((m % 2 ^ w : Nat) : Int) + 1) := by
      rw [Nat.cast_sub (by omega)]; push_cast; rfl
    rw [hsub]
    linear_combination (-1 : Int) * hm
  rw [key, Int.add_mul_emod_self_left, Int.emod_eq_of_lt (by positivity) (by exact_mod_cast (by omega : 2 ^ w - (m % 2 ^ w + 1) < 2 ^ w))]
  exact Int.toNat_natCast _

theorem testBit_force_lflag (K : TermiosConsts) (l i : Nat) :
    (force_lflag K l).testBit i
      = (decide (i < K.tcflag_bits) && ((l.testBit i || K.ICANON.testBit i)
          && !(K.ECHO.testBit i || K.ECHONL.testBit i))) := by
  have hlt : (K.ECHO ||| K.ECHONL) % 2 ^ K.tcflag_bits < 2 ^ K.tcflag_bits :=
    Nat.mod_lt _ (Nat.two_pow_pos _)
  unfold force_lflag
  simp only [toUnsigned_bnot_int, Nat.testBit_mod_two_pow, Nat.testBit_and, Nat.testBit_or,
    Nat.testBit_two_pow_sub_succ hlt]
  cases (decide (i < K.tcflag_bits)) <;> cases l.testBit i <;> cases K.ICANON.testBit i <;>
    cases K.ECHO.testBit i <;> cases K.ECHONL.testBit i <;> rfl

theorem lor_eq_zero (a b : Nat) : a ||| b = 0 ↔ a = 0 ∧ b = 0 := by
  constructor
  · intro h
    have hb : ∀ i, (a.testBit i || b.testBit i) = false := by
      intro i
      rw [← Nat.testBit_or, h, Nat.zero_testBit]
    constructor
    · apply Nat.eq_of_testBit_eq
      intro i
      have h1 := hb i
      rw [Bool.or_eq_false_iff] at h1
      rw [h1.1, Nat.zero_testBit]
    · apply Nat.eq_of_testBit_eq
      intro i
      have h1 := hb i
      rw [Bool.or_eq_false_iff] at h1
      rw [h1.2, Nat.zero_testBit]
  · rintro ⟨rfl, rfl⟩
    rfl

/-- The test on line 31 is the negation of the specification's predicate. -/
theorem needs_rewrite_eq_false_iff (K : TermiosConsts) (t : termios) :
    needs_rewrite K t = false ↔ CanonNoEcho K t := by
  unfold needs_rewrite CanonNoEcho
  rw [Nat.and_or_distrib_left]
  simp only [Bool.or_eq_false_iff, beq_eq_false_iff_ne, bne_eq_false_iff_eq, lor_eq_zero, ne_eq]

theorem needs_rewrite_eq_true_iff (K : TermiosConsts) (t : termios) :
    needs_rewrite K t = true ↔ ¬ CanonNoEcho K t := by
  rw [← needs_rewrite_eq_false_iff]
  cases needs_rewrite K t <;> simp

/-- After lines 34-35 the buffer satisfies the specification's predicate. -/
theorem canonNoEcho_force_canon (K : TermiosConsts) (hK : K.DistinctFlagBits) (t : termios) :
    CanonNoEcho K (force_canon K t) := by
  obtain ⟨a, b, c, ha, hb, hc, hab, hac, _, haw, _, _⟩ := hK
  have hbit : ∀ i, (force_lflag K t.c_lflag).testBit i
      = (decide (i < K.tcflag_bits) && ((t.c_lflag.testBit i || decide (a = i))
          && !(decide (b = i) || decide (c = i)))) := by
    intro i
    rw [testBit_force_lflag, ha, hb, hc, Nat.testBit_two_pow, Nat.testBit_two_pow,
      Nat.testBit_two_pow]
  refine ⟨?_, ?_, ?_⟩
  · intro h0
    have h1 : ((force_canon K t).c_lflag &&& K.ICANON).testBit a = true := by
      show ((force_lflag K t.c_lflag) &&& K.ICANON).testBit a = true
      rw [Nat.testBit_and, hbit, ha, Nat.testBit_two_pow_self]
      simp [haw, hab.symm, hac.symm]
    rw [h0, Nat.zero_testBit] at h1
    exact Bool.noConfusion h1
  · apply Nat.eq_of_testBit_eq
    intro i
    show ((force_lflag K t.c_lflag) &&& K.ECHO).testBit i = Nat.testBit 0 i
    rw [Nat.testBit_and, hbit, hb, Nat.testBit_two_pow, Nat.zero_testBit]
    by_cases h : b = i <;> simp [h]
  · apply Nat.eq_of_testBit_eq
    intro i
    show ((force_lflag K t.c_lflag) &&& K.ECHONL).testBit i = Nat.testBit 0 i
    rw [Nat.testBit_and, hbit, hc, Nat.testBit_two_pow, Nat.zero_testBit]
    by_cases h : c = i <;> simp [h]

/-- Lines 34-35 leave every bit outside the three flags as it was. -/
theorem testBit_force_lflag_other (K : TermiosConsts) (l i : Nat)
    (hl : l < 2 ^ K.tcflag_bits) (h1 : K.ICANON.testBit i = false)
    (h2 : K.ECHO.testBit i = false) (h3 : K.ECHONL.testBit i = false) :
    (force_lflag K l).testBit i = l.testBit i := by
  rw [testBit_force_lflag, h1, h2, h3]
  by_cases hi : i < K.tcflag_bits
  · simp [hi]
  · have hge : 2 ^ K.tcflag_bits ≤ 2 ^ i :=
      Nat.pow_le_pow_right (by decide) (Nat.le_of_not_lt hi)
    rw [Nat.testBit_lt_two_pow (Nat.lt_of_lt_of_le hl hge)]
    simp [hi]

/-! ## Run equations -/

/-- The write step when `write` does not return 2. -/
theorem send_seq_short {σ : Type} (K : TermiosConsts) (W : Sys σ) (fd : Int) (buf : termios)
    (tr : List Event) (s : σ) (r4 : Int) (s4 : σ)
    (hw : W.write fd [10, buf.c_cc.getD K.VEOF 0 % 256] 2 s = (r4, s4))
    (h4 : toInt32 r4 ≠ 2) :
    send_seq K W fd buf tr s =
      { ret := -1,
        trace := tr ++ [Event.write fd [10, buf.c_cc.getD K.VEOF 0 % 256] 2 r4],
        state := s4 } := by
  unfold send_seq
  simp only [hw, h4, ne_eq, not_false_eq_true, if_true]

/-- The write step when `write` returns 2. -/
theorem send_seq_full {σ : Type} (K : TermiosConsts) (W : Sys σ) (fd : Int) (buf : termios)
    (tr : List Event) (s : σ) (r4 : Int) (s4 : σ)
    (hw : W.write fd [10, buf.c_cc.getD K.VEOF 0 % 256] 2 s = (r4, s4))
    (h4 : toInt32 r4 = 2) :
    send_seq K W fd buf tr s =
      { ret := 0,
        trace := tr ++ [Event.write fd [10, buf.c_cc.getD K.VEOF 0 % 256] 2 r4,
                Event.tcdrain fd (W.tcdrain fd s4).1],
        state := (W.tcdrain fd s4).2 } := by
  unfold send_seq
  simp only [hw, h4, ne_eq, not_true_eq_false, if_false, List.append_assoc, List.cons_append,
    List.nil_append]

/-- The run when the resolver fails. -/
theorem exjl_sendeof_eq_resolver_fail {σ : Type} (K : TermiosConsts) (W : Sys σ) (tty : Handle)
    (s0 : σ) (r fd : Int) (s1 : σ) (hu : W.uv_fileno tty s0 = (r, fd, s1)) (hr : r ≠ 0) :
    exjl_sendeof K W tty s0
      = { ret := -1, trace := [Event.uv_fileno tty r fd], state := s1 } := by
  unfold exjl_sendeof
  simp only [hu, hr, ne_eq, not_false_eq_true, if_true]

/-- The run when `tcgetattr` fails. -/
theorem exjl_sendeof_eq_getattr_fail {σ : Type} (K : TermiosConsts) (W : Sys σ) (tty : Handle)
    (s0 : σ) (fd : Int) (s1 : σ) (r : Int) (buf : termios) (s2 : σ)
    (hu : W.uv_fileno tty s0 = (0, fd, s1)) (hg : W.tcgetattr fd s1 = (r, buf, s2))
    (hr : r ≠ 0) :
    exjl_sendeof K W tty s0
      = { ret := -1, trace := [Event.uv_fileno tty 0 fd, Event.tcgetattr fd r buf],
          state := s2 } := by
  unfold exjl_sendeof
  simp only [hu, hg, hr, ne_eq, not_true_eq_false, not_false_eq_true, if_true, if_false,
    List.cons_append, List.nil_append]

/-- The run when the flags are acceptable: straight to the write step. -/
theorem exjl_sendeof_eq_keep {σ : Type} (K : TermiosConsts) (W : Sys σ) (tty : Handle)
    (s0 : σ) (fd : Int) (s1 : σ) (snap : termios) (s2 : σ)
    (hu : W.uv_fileno tty s0 = (0, fd, s1)) (hg : W.tcgetattr fd s1 = (0, snap, s2))
    (hn : needs_rewrite K snap = false) :
    exjl_sendeof K W tty s0
      = send_seq K W fd snap [Event.uv_fileno tty 0 fd, Event.tcgetattr fd 0 snap] s2 := by
  unfold exjl_sendeof
  simp only [hu, hg, hn, ne_eq, not_true_eq_false, if_false, List.cons_append,
    List.nil_append, Bool.false_eq_true]

/-- The run when the flags are rewritten and `tcsetattr` fails. -/
theorem exjl_sendeof_eq_setattr_fail {σ : Type} (K : TermiosConsts) (W : Sys σ) (tty : Handle)
    (s0 : σ) (fd : Int) (s1 : σ) (snap : termios) (s2 : σ) (r3 : Int) (s3 : σ)
    (hu : W.uv_fileno tty s0 = (0, fd, s1)) (hg : W.tcgetattr fd s1 = (0, snap, s2))
    (hn : needs_rewrite K snap = true)
    (ht : W.tcsetattr fd K.TCSADRAIN (force_canon K snap) s2 = (r3, s3)) (h3 : r3 ≠ 0) :
    exjl_sendeof K W tty s0
      = { ret := -1,
          trace := [Event.uv_fileno tty 0 fd, Event.tcgetattr fd 0 snap,
                    Event.tcsetattr fd K.TCSADRAIN (force_canon K snap) r3],
          state := s3 } := by
  unfold exjl_sendeof
  simp only [hu, hg, hn, ht, h3, ne_eq, not_true_eq_false, not_false_eq_true, if_true,
    if_false, List.cons_append, List.nil_append]

/-- The run when the flags are rewritten and `tcsetattr` succeeds. -/
theorem exjl_sendeof_eq_rewrite {σ : Type} (K : TermiosConsts) (W : Sys σ) (tty : Handle)
    (s0 : σ) (fd : Int) (s1 : σ) (snap : termios) (s2 : σ) (s3 : σ)
    (hu : W.uv_fileno tty s0 = (0, fd, s1)) (hg : W.tcgetattr fd s1 = (0, snap, s2))
    (hn : needs_rewrite K snap = true)
    (ht : W.tcsetattr fd K.TCSADRAIN (force_canon K snap) s2 = (0, s3)) :
    exjl_sendeof K W tty s0
      = send_seq K W fd (force_canon K snap)
          [Event.uv_fileno tty 0 fd, Event.tcgetattr fd 0 snap,
           Event.tcsetattr fd K.TCSADRAIN (force_canon K snap) 0] s3 := by
  unfold exjl_sendeof
  simp only [hu, hg, hn, ht, ne_eq, not_true_eq_false, if_true, if_false,
    List.cons_append, List.nil_append]

/-- Every run of the write step is one of two shapes. -/
theorem send_seq_cases {σ : Type} (K : TermiosConsts) (W : Sys σ) (fd : Int) (buf : termios)
    (tr : List Event) (s : σ) :
    ∃ r4 s4, W.write fd [10, buf.c_cc.getD K.VEOF 0 % 256] 2 s = (r4, s4) ∧
      ((toInt32 r4 ≠ 2 ∧
          send_seq K W fd buf tr s
            = { ret := -1,
                trace := tr ++ [Event.write fd [10, buf.c_cc.getD K.VEOF 0 % 256] 2 r4],
                state := s4 }) ∨
       (toInt32 r4 = 2 ∧
          send_seq K W fd buf tr s
            = { ret := 0,
                trace := tr ++ [Event.write fd [10, buf.c_cc.getD K.VEOF 0 % 256] 2 r4,
                  Event.tcdrain fd (W.tcdrain fd s4).1],
                state := (W.tcdrain fd s4).2 })) := by
  generalize hwd : W.write fd [10, buf.c_cc.getD K.VEOF 0 % 256] 2 s = w
  obtain ⟨r4, s4⟩ := w
  refine ⟨r4, s4, rfl, ?_⟩
  by_cases h4 : toInt32 r4 = 2
  · exact Or.inr ⟨h4, send_seq_full K W fd buf tr s r4 s4 hwd h4⟩
  · exact Or.inl ⟨h4, send_seq_short K W fd buf tr s r4 s4 hwd h4⟩

/-- Every run of `exjl_sendeof` takes one of five paths up to the write
step. -/
theorem exjl_sendeof_cases {σ : Type} (K : TermiosConsts) (W : Sys σ) (tty : Handle) (s0 : σ) :
    ∃ r1 fd s1, W.uv_fileno tty s0 = (r1, fd, s1) ∧
      ((r1 ≠ 0 ∧ exjl_sendeof K W tty s0
          = { ret := -1, trace := [Event.uv_fileno tty r1 fd], state := s1 }) ∨
       (r1 = 0 ∧ ∃ r2 snap s2, W.tcgetattr fd s1 = (r2, snap, s2) ∧
          ((r2 ≠ 0 ∧ exjl_sendeof K W tty s0
              = { ret := -1, trace := [Event.uv_fileno tty 0 fd, Event.tcgetattr fd r2 snap],
                  state := s2 }) ∨
           (r2 = 0 ∧ needs_rewrite K snap = false ∧ exjl_sendeof K W tty s0
              = send_seq K W fd snap
                  [Event.uv_fileno tty 0 fd, Event.tcgetattr fd 0 snap] s2) ∨
           (r2 = 0 ∧ needs_rewrite K snap = true ∧
              ∃ r3 s3, W.tcsetattr fd K.TCSADRAIN (force_canon K snap) s2 = (r3, s3) ∧
                ((r3 ≠ 0 ∧ exjl_sendeof K W tty s0
                    = { ret := -1,
                        trace := [Event.uv_fileno tty 0 fd, Event.tcgetattr fd 0 snap,
                          Event.tcsetattr fd K.TCSADRAIN (force_canon K snap) r3],
                        state := s3 }) ∨
                 (r3 = 0 ∧ exjl_sendeof K W tty s0
                    = send_seq K W fd (force_canon K snap)
                        [Event.uv_fileno tty 0 fd, Event.tcgetattr fd 0 snap,
                          Event.tcsetattr fd K.TCSADRAIN (force_canon K snap) 0] s3)))))) := by
  generalize hud : W.uv_fileno tty s0 = u
  obtain ⟨r1, fd, s1⟩ := u
  refine ⟨r1, fd, s1, rfl, ?_⟩
  by_cases h1 : r1 = 0
  · subst h1
    right
    refine ⟨rfl, ?_⟩
    generalize hgd : W.tcgetattr fd s1 = g
    obtain ⟨r2, snap, s2⟩ := g
    refine ⟨r2, snap, s2, rfl, ?_⟩
    by_cases h2 : r2 = 0
    · subst h2
      right
      cases hn : needs_rewrite K snap
      · left
        exact ⟨rfl, rfl, exjl_sendeof_eq_keep K W tty s0 fd s1 snap s2 hud hgd hn⟩
      · right
        refine ⟨rfl, rfl, ?_⟩
        generalize htd : W.tcsetattr fd K.TCSADRAIN (force_canon K snap) s2 = t
        obtain ⟨r3, s3⟩ := t
        refine ⟨r3, s3, rfl, ?_⟩
        by_cases h3 : r3 = 0
        · subst h3
          right
          exact ⟨rfl, exjl_sendeof_eq_rewrite K W tty s0 fd s1 snap s2 s3 hud hgd hn htd⟩
        · left
          exact ⟨h3, exjl_sendeof_eq_setattr_fail K W tty s0 fd s1 snap s2 r3 s3 hud hgd hn htd h3⟩
    · left
      exact ⟨h2, exjl_sendeof_eq_getattr_fail K W tty s0 fd s1 r2 snap s2 hud hgd h2⟩
  · left
    exact ⟨h1, exjl_sendeof_eq_resolver_fail K W tty s0 r1 fd s1 hud h1⟩

/-- The events of a run of the write step: those issued before it, the
`write`, and possibly the `tcdrain`. -/
theorem mem_send_seq_trace {σ : Type} (K : TermiosConsts) (W : Sys σ) (fd : Int) (buf : termios)
    (tr : List Event) (s : σ) (e : Event) (he : e ∈ (send_seq K W fd buf tr s).trace) :
    e ∈ tr ∨ (∃ r, e = Event.write fd [10, buf.c_cc.getD K.VEOF 0 % 256] 2 r) ∨
      (∃ r, e = Event.tcdrain fd r) := by
  obtain ⟨r4, s4, _, h | h⟩ := send_seq_cases K W fd buf tr s
  · rw [h.2] at he
    simp only [List.mem_append, List.mem_singleton] at he
    rcases he with he | he
    · exact Or.inl he
    · exact Or.inr (Or.inl ⟨r4, he⟩)
  · rw [h.2] at he
    simp only [List.mem_append, List.mem_cons, List.mem_singleton, List.not_mem_nil,
      or_false] at he
    rcases he with he | he | he
    · exact Or.inl he
    · exact Or.inr (Or.inl ⟨r4, he⟩)
    · exact Or.inr (Or.inr ⟨_, he⟩)

/-- In a list none of whose elements but the last satisfies `P`, an element
satisfying `P` has nothing after it. -/
theorem post_nil_of_dropLast {α : Type} (P : α → Prop) (l pre post : List α) (e : α)
    (h : l = pre ++ e :: post) (hd : ∀ x ∈ l.dropLast, ¬ P x) (hP : P e) : post = [] := by
  cases post with
  | nil => rfl
  | cons p ps =>
    exfalso
    apply hd e _ hP
    rw [h, List.dropLast_append_cons, List.dropLast_cons₂]
    simp

/-- The write step does not touch terminal attributes. -/
theorem attrs_send_seq {σ : Type} (K : TermiosConsts) (W : Sys σ)
    (attrs : σ → Int → Option termios) (M : AttrModel W attrs) (fd : Int) (buf : termios)
    (tr : List Event) (s : σ) :
    attrs (send_seq K W fd buf tr s).state = attrs s := by
  obtain ⟨r4, s4, hw, h | h⟩ := send_seq_cases K W fd buf tr s
  · rw [h.2]
    have h1 := M.write_frame fd [10, buf.c_cc.getD K.VEOF 0 % 256] 2 s
    rw [hw] at h1
    exact h1
  · rw [h.2]
    have h1 := M.write_frame fd [10, buf.c_cc.getD K.VEOF 0 % 256] 2 s
    rw [hw] at h1
    have h2 := M.tcdrain_frame fd s4
    exact h2.trans h1

/-- The reference kernel keeps attributes the way `AttrModel` describes. -/
theorem kernelSys_attrModel (K : TermiosConsts) : AttrModel (kernelSys K) Kernel.attrsOf where
  uv_fileno_frame := by
    intro h s
    simp only [kernelSys]
    split <;> rfl
  tcgetattr_frame := by
    intro fd s
    simp only [kernelSys]
    split
    · split <;> rfl
    · rfl
  tcsetattr_applies := by
    intro fd a t s
    simp only [kernelSys]
    split
    · split
      · intro _
        simp [Kernel.attrsOf]
      · intro h
        exact absurd h (by decide : ¬ ((-1 : Int) = 0))
    · intro h
      exact absurd h (by decide : ¬ ((-1 : Int) = 0))
  write_frame := by
    intro fd b n s
    simp only [kernelSys]
    split
    · rename_i f hf
      funext fd1
      by_cases h : fd1 = fd
      · subst h
        simp [Kernel.attrsOf, hf]
      · simp [Kernel.attrsOf, Function.update, h]
    · rfl
  tcdrain_frame := by
    intro fd s
    simp only [kernelSys]
    split <;> rfl

/-! ## Properties of `exjl_sendeof` and `exjl_set_cloexec` -/

/-- C7: when the resolver `uv_fileno` returns nonzero, `exjl_sendeof` returns
`-1` (a negative result) after that one resolver call: the trace is the
single `uv_fileno` event, so no `tcgetattr`, `tcsetattr`, `write` or
`tcdrain` is issued, and the state is the one the resolver left. -/
theorem exjl_sendeof_resolver_failure {σ : Type} (K : TermiosConsts) (W : Sys σ)
    (tty : Handle) (s0 : σ) (r fd : Int) (s1 : σ)
    (hu : W.uv_fileno tty s0 = (r, fd, s1)) (hr : r ≠ 0) :
    (exjl_sendeof K W tty s0).ret = -1 ∧
    (exjl_sendeof K W tty s0).ret < 0 ∧
    (exjl_sendeof K W tty s0).trace = [Event.uv_fileno tty r fd] ∧
    (exjl_sendeof K W tty s0).state = s1 := by
  rw [exjl_sendeof_eq_resolver_fail K W tty s0 r fd s1 hu hr]
  exact ⟨rfl, (by decide : (-1 : Int) < 0), rfl, rfl⟩

/-- C7, at a concrete input: a resolver answering `-9` on the scripted
environment. -/
theorem exjl_sendeof_resolver_failure_witness :
    (scriptSys { okScript with fileno_ret := -9 }).uv_fileno 7 () = (-9, 5, ()) ∧
    (-9 : Int) ≠ 0 ∧
    (exjl_sendeof linuxConsts (scriptSys { okScript with fileno_ret := -9 }) 7 ()).ret = -1 ∧
    (exjl_sendeof linuxConsts (scriptSys { okScript with fileno_ret := -9 }) 7 ()).ret < 0 ∧
    (exjl_sendeof linuxConsts (scriptSys { okScript with fileno_ret := -9 }) 7 ()).trace
      = [Event.uv_fileno 7 (-9) 5] ∧
    (exjl_sendeof linuxConsts (scriptSys { okScript with fileno_ret := -9 }) 7 ()).state = () :=
  ⟨rfl, by decide,
    exjl_sendeof_resolver_failure linuxConsts (scriptSys { okScript with fileno_ret := -9 })
      7 () (-9) 5 () rfl (by decide)⟩

/-- C6: when the resolver succeeds and the initial `tcgetattr` returns
nonzero, `exjl_sendeof` returns `-1` (a negative result); the trace is the
resolver call followed by that `tcgetattr`, so no `write`, `tcsetattr` or
`tcdrain` is issued, and the state is the one `tcgetattr` left. -/
theorem exjl_sendeof_tcgetattr_failure {σ : Type} (K : TermiosConsts) (W : Sys σ)
    (tty : Handle) (s0 : σ) (fd : Int) (s1 : σ) (r : Int) (buf : termios) (s2 : σ)
    (hu : W.uv_fileno tty s0 = (0, fd, s1))
    (hg : W.tcgetattr fd s1 = (r, buf, s2)) (hr : r ≠ 0) :
    (exjl_sendeof K W tty s0).ret = -1 ∧
    (exjl_sendeof K W tty s0).ret < 0 ∧
    (exjl_sendeof K W tty s0).trace = [Event.uv_fileno tty 0 fd, Event.tcgetattr fd r buf] ∧
    (exjl_sendeof K W tty s0).state = s2 ∧
    (∀ e ∈ (exjl_sendeof K W tty s0).trace,
      e.kind ≠ Kind.write ∧ e.kind ≠ Kind.tcsetattr ∧ e.kind ≠ Kind.tcdrain) := by
  rw [exjl_sendeof_eq_getattr_fail K W tty s0 fd s1 r buf s2 hu hg hr]
  refine ⟨rfl, (by decide : (-1 : Int) < 0), rfl, rfl, ?_⟩
  intro e he
  simp only [List.mem_cons, List.mem_singleton, List.not_mem_nil, or_false] at he
  rcases he with rfl | rfl <;> simp [Event.kind]

/-- C6, at a concrete input: the reference kernel with handle 7 resolving to
a regular file. -/
theorem exjl_sendeof_tcgetattr_failure_witness :
    (kernelSys linuxConsts).uv_fileno 7 fileKernel = (0, 5, fileKernel) ∧
    (kernelSys linuxConsts).tcgetattr 5 fileKernel = (-1, zeroAttrs, fileKernel) ∧
    (exjl_sendeof linuxConsts (kernelSys linuxConsts) 7 fileKernel).ret = -1 ∧
    (exjl_sendeof linuxConsts (kernelSys linuxConsts) 7 fileKernel).ret < 0 ∧
    (exjl_sendeof linuxConsts (kernelSys linuxConsts) 7 fileKernel).trace
      = [Event.uv_fileno 7 0 5, Event.tcgetattr 5 (-1) zeroAttrs] ∧
    (exjl_sendeof linuxConsts (kernelSys linuxConsts) 7 fileKernel).state = fileKernel ∧
    (∀ e ∈ (exjl_sendeof linuxConsts (kernelSys linuxConsts) 7 fileKernel).trace,
      e.kind ≠ Kind.write ∧ e.kind ≠ Kind.tcsetattr ∧ e.kind ≠ Kind.tcdrain) :=
  ⟨rfl, rfl,
    exjl_sendeof_tcgetattr_failure linuxConsts (kernelSys linuxConsts) 7 fileKernel 5
      fileKernel (-1) zeroAttrs fileKernel rfl rfl (by decide)⟩

/-- C3: on a terminal whose flags already have `ICANON` set and `ECHO`,
`ECHONL` clear, with the resolver, `tcgetattr` and `write` succeeding, the
calls of `exjl_sendeof` are, in order: the resolver, one `tcgetattr`, one
`write` of the two-byte buffer with length argument 2, one `tcdrain`; no
`tcsetattr` is issued and the result is 0. -/
theorem exjl_sendeof_acceptable_sequence {σ : Type} (K : TermiosConsts) (W : Sys σ)
    (tty : Handle) (s0 : σ) (fd : Int) (s1 : σ) (snap : termios) (s2 s3 : σ)
    (hu : W.uv_fileno tty s0 = (0, fd, s1))
    (hg : W.tcgetattr fd s1 = (0, snap, s2))
    (hc : CanonNoEcho K snap)
    (hw : W.write fd [10, snap.c_cc.getD K.VEOF 0 % 256] 2 s2 = (2, s3)) :
    (exjl_sendeof K W tty s0).trace
      = [Event.uv_fileno tty 0 fd, Event.tcgetattr fd 0 snap,
         Event.write fd [10, snap.c_cc.getD K.VEOF 0 % 256] 2 2,
         Event.tcdrain fd (W.tcdrain fd s3).1] ∧
    ((exjl_sendeof K W tty s0).trace.map Event.kind
      = [Kind.uv_fileno, Kind.tcgetattr, Kind.write, Kind.tcdrain]) ∧
    (exjl_sendeof K W tty s0).ret = 0 := by
  have hn : needs_rewrite K snap = false := (needs_rewrite_eq_false_iff K snap).2 hc
  rw [exjl_sendeof_eq_keep K W tty s0 fd s1 snap s2 hu hg hn,
    send_seq_full K W fd snap _ s2 2 s3 hw (by decide)]
  exact ⟨rfl, rfl, rfl⟩

/-- C3, at a concrete input: the scripted environment on a canonical,
non-echoing terminal. -/
theorem exjl_sendeof_acceptable_sequence_witness :
    CanonNoEcho linuxConsts cookedAttrs ∧
    (exjl_sendeof linuxConsts (scriptSys { okScript with attrs := cookedAttrs }) 7 ()).trace
      = [Event.uv_fileno 7 0 5, Event.tcgetattr 5 0 cookedAttrs,
         Event.write 5 [10, 4] 2 2, Event.tcdrain 5 0] ∧
    ((exjl_sendeof linuxConsts (scriptSys { okScript with attrs := cookedAttrs }) 7 ()).trace.map
        Event.kind = [Kind.uv_fileno, Kind.tcgetattr, Kind.write, Kind.tcdrain]) ∧
    (exjl_sendeof linuxConsts (scriptSys { okScript with attrs := cookedAttrs }) 7 ()).ret = 0 :=
  ⟨by decide,
    exjl_sendeof_acceptable_sequence linuxConsts (scriptSys { okScript with attrs := cookedAttrs })
      7 () 5 () cookedAttrs () () rfl rfl (by decide) rfl⟩

/-- C2: on a terminal whose flags, as read by a successful `tcgetattr`, do
not satisfy "ICANON set, ECHO clear, ECHONL clear", `exjl_sendeof` issues
exactly one `tcsetattr`, with `TCSADRAIN`, right after the `tcgetattr`; what
follows it is at most the `write` and the `tcdrain`.  With `ICANON`, `ECHO`
and `ECHONL` distinct flag bits, the attributes handed to that `tcsetattr`
satisfy the predicate, and a successful run means that call returned 0. -/
theorem exjl_sendeof_rewrites_once {σ : Type} (K : TermiosConsts) (W : Sys σ)
    (tty : Handle) (s0 : σ) (fd : Int) (s1 : σ) (snap : termios) (s2 : σ)
    (hK : K.DistinctFlagBits)
    (hu : W.uv_fileno tty s0 = (0, fd, s1))
    (hg : W.tcgetattr fd s1 = (0, snap, s2))
    (hn : ¬ CanonNoEcho K snap) :
    ∃ buf r rest,
      (exjl_sendeof K W tty s0).trace
        = [Event.uv_fileno tty 0 fd, Event.tcgetattr fd 0 snap,
           Event.tcsetattr fd K.TCSADRAIN buf r] ++ rest ∧
      (∀ e ∈ rest, e.kind = Kind.write ∨ e.kind = Kind.tcdrain) ∧
      ((exjl_sendeof K W tty s0).trace.map Event.kind).count Kind.tcsetattr = 1 ∧
      CanonNoEcho K buf ∧
      ((exjl_sendeof K W tty s0).ret = 0 → r = 0) := by
  have hnr : needs_rewrite K snap = true := (needs_rewrite_eq_true_iff K snap).2 hn
  generalize htd : W.tcsetattr fd K.TCSADRAIN (force_canon K snap) s2 = t
  obtain ⟨r3, s3⟩ := t
  refine ⟨force_canon K snap, r3, ?_⟩
  by_cases h3 : r3 = 0
  · subst h3
    rw [exjl_sendeof_eq_rewrite K W tty s0 fd s1 snap s2 s3 hu hg hnr htd]
    obtain ⟨r4, s4, _, h | h⟩ := send_seq_cases K W fd (force_canon K snap)
      [Event.uv_fileno tty 0 fd, Event.tcgetattr fd 0 snap,
        Event.tcsetattr fd K.TCSADRAIN (force_canon K snap) 0] s3
    · rw [h.2]
      refine ⟨_, rfl, ?_, rfl, canonNoEcho_force_canon K hK snap, fun _ => rfl⟩
      intro e he
      rw [List.mem_singleton] at he
      subst he
      exact Or.inl rfl
    · rw [h.2]
      refine ⟨_, rfl, ?_, rfl, canonNoEcho_force_canon K hK snap, fun _ => rfl⟩
      intro e he
      simp only [List.mem_cons, List.mem_singleton, List.not_mem_nil, or_false] at he
      rcases he with rfl | rfl
      · exact Or.inl rfl
      · exact Or.inr rfl
  · rw [exjl_sendeof_eq_setattr_fail K W tty s0 fd s1 snap s2 r3 s3 hu hg hnr htd h3]
    refine ⟨[], rfl, ?_, rfl, canonNoEcho_force_canon K hK snap, ?_⟩
    · intro e he
      exact absurd he (List.not_mem_nil e)
    · intro h0
      exact absurd h0 (by decide : ¬ ((-1 : Int) = 0))

/-- C2, at a concrete input: the scripted environment on a raw-mode terminal
with the Linux constants. -/
theorem exjl_sendeof_rewrites_once_witness :
    linuxConsts.DistinctFlagBits ∧ ¬ CanonNoEcho linuxConsts rawAttrs ∧
    ∃ buf r rest,
      (exjl_sendeof linuxConsts (scriptSys okScript) 7 ()).trace
        = [Event.uv_fileno 7 0 5, Event.tcgetattr 5 0 rawAttrs,
           Event.tcsetattr 5 linuxConsts.TCSADRAIN buf r] ++ rest ∧
      (∀ e ∈ rest, e.kind = Kind.write ∨ e.kind = Kind.tcdrain) ∧
      ((exjl_sendeof linuxConsts (scriptSys okScript) 7 ()).trace.map Event.kind).count
        Kind.tcsetattr = 1 ∧
      CanonNoEcho linuxConsts buf ∧
      ((exjl_sendeof linuxConsts (scriptSys okScript) 7 ()).ret = 0 → r = 0) :=
  ⟨⟨1, 3, 6, by decide⟩, by decide,
    exjl_sendeof_rewrites_once linuxConsts (scriptSys okScript) 7 () 5 () rawAttrs ()
      ⟨1, 3, 6, by decide⟩ rfl rfl (by decide)⟩

/-- C1: in every run of `exjl_sendeof`, whatever the resolver and
`tcgetattr` answered and whether or not the flags were rewritten, every
`write` issued is on the resolved descriptor, has length argument 2 and is
handed the two-byte buffer `[0x0A, c_cc[VEOF]]`, where `c_cc[VEOF]` is the
byte of the snapshot filled in by the initial `tcgetattr`. -/
theorem exjl_sendeof_write_buffer {σ : Type} (K : TermiosConsts) (W : Sys σ)
    (tty : Handle) (s0 : σ) (r1 fd : Int) (s1 : σ) (r2 : Int) (snap : termios) (s2 : σ)
    (hu : W.uv_fileno tty s0 = (r1, fd, s1))
    (hg : W.tcgetattr fd s1 = (r2, snap, s2))
    (hcc : snap.c_cc.getD K.VEOF 0 < 256)
    (wfd : Int) (bytes : List Nat) (count : Nat) (r : Int)
    (hw : Event.write wfd bytes count r ∈ (exjl_sendeof K W tty s0).trace) :
    bytes = [10, snap.c_cc.getD K.VEOF 0] ∧ bytes.length = 2 ∧ count = 2 ∧ wfd = fd := by
  have hmod : snap.c_cc.getD K.VEOF 0 % 256 = snap.c_cc.getD K.VEOF 0 := Nat.mod_eq_of_lt hcc
  have key : ∀ (buf : termios) (tr : List Event) (s : σ), buf.c_cc = snap.c_cc →
      (∀ e ∈ tr, e.kind ≠ Kind.write) →
      Event.write wfd bytes count r ∈ (send_seq K W fd buf tr s).trace →
      bytes = [10, snap.c_cc.getD K.VEOF 0] ∧ bytes.length = 2 ∧ count = 2 ∧ wfd = fd := by
    intro buf tr s hbuf htr hmem
    rcases mem_send_seq_trace K W fd buf tr s _ hmem with h | ⟨r', h⟩ | ⟨r', h⟩
    · exact absurd rfl (htr _ h)
    · rw [hbuf, hmod] at h
      injection h with h1 h2 h3 h4
      subst h1 h2 h3
      exact ⟨rfl, rfl, rfl, rfl⟩
    · exact Event.noConfusion h
  by_cases h1 : r1 = 0
  · subst h1
    by_cases h2 : r2 = 0
    · subst h2
      cases hn : needs_rewrite K snap
      · rw [exjl_sendeof_eq_keep K W tty s0 fd s1 snap s2 hu hg hn] at hw
        refine key snap _ s2 rfl ?_ hw
        intro e he
        simp only [List.mem_cons, List.mem_singleton, List.not_mem_nil, or_false] at he
        rcases he with rfl | rfl <;> simp [Event.kind]
      · generalize htd : W.tcsetattr fd K.TCSADRAIN (force_canon K snap) s2 = t at hw
        obtain ⟨r3, s3⟩ := t
        by_cases h3 : r3 = 0
        · subst h3
          rw [exjl_sendeof_eq_rewrite K W tty s0 fd s1 snap s2 s3 hu hg hn htd] at hw
          refine key (force_canon K snap) _ s3 rfl ?_ hw
          intro e he
          simp only [List.mem_cons, List.mem_singleton, List.not_mem_nil, or_false] at he
          rcases he with rfl | rfl | rfl <;> simp [Event.kind]
        · rw [exjl_sendeof_eq_setattr_fail K W tty s0 fd s1 snap s2 r3 s3 hu hg hn htd h3] at hw
          simp at hw
    · rw [exjl_sendeof_eq_getattr_fail K W tty s0 fd s1 r2 snap s2 hu hg h2] at hw
      simp at hw
  · rw [exjl_sendeof_eq_resolver_fail K W tty s0 r1 fd s1 hu h1] at hw
    simp at hw

/-- C1, at a concrete input: a raw-mode terminal whose `VEOF` slot holds
`0x1A`; the flags are rewritten and the buffer written is `0x0A 0x1A`. -/
theorem exjl_sendeof_write_buffer_witness :
    Event.write 5 [10, 26] 2 2 ∈ (exjl_sendeof linuxConsts (scriptSys okScript) 7 ()).trace ∧
    ([10, 26] = [10, rawAttrs.c_cc.getD linuxConsts.VEOF 0] ∧ [10, 26].length = 2 ∧
      2 = 2 ∧ (5 : Int) = 5) :=
  ⟨by decide,
    exjl_sendeof_write_buffer linuxConsts (scriptSys okScript) 7 () 0 5 () 0 rawAttrs ()
      rfl rfl (by decide) 5 [10, 26] 2 2 (by decide)⟩

/-- C9: for every answer of the environment, `exjl_sendeof` returns 0 or
-1, and it returns 0 exactly when the resolver answered 0, `tcgetattr`
answered 0, `tcsetattr` answered 0 if the flags read required the call
(they do not satisfy "ICANON set, ECHO and ECHONL clear"), and the value of
`write` stored in `int ret` is 2; for a `write` result that fits `int`, as
every result of a two-byte `write` does, that is: `write` answered exactly
2.  The answer of `tcdrain` is ignored: replacing `tcdrain` by any other
function leaves the return value unchanged.  Here `r1`, `r2`, `r3`, `r4`
are the answers of the environment at the calls on lines 24, 28, 36 and 43,
each at the state the previous call left. -/
theorem exjl_sendeof_result {σ : Type} (K : TermiosConsts) (W : Sys σ)
    (tty : Handle) (s0 : σ) (r1 fd : Int) (s1 : σ) (r2 : Int) (snap : termios) (s2 : σ)
    (r3 : Int) (s3 : σ) (r4 : Int) (s4 : σ)
    (hu : W.uv_fileno tty s0 = (r1, fd, s1))
    (hg : W.tcgetattr fd s1 = (r2, snap, s2))
    (ht : W.tcsetattr fd K.TCSADRAIN (force_canon K snap) s2 = (r3, s3))
    (hw : W.write fd [10, snap.c_cc.getD K.VEOF 0 % 256] 2
            (if CanonNoEcho K snap then s2 else s3) = (r4, s4)) :
    ((exjl_sendeof K W tty s0).ret = 0 ∨ (exjl_sendeof K W tty s0).ret = -1) ∧
    ((exjl_sendeof K W tty s0).ret = 0 ↔
      (r1 = 0 ∧ r2 = 0 ∧ (¬ CanonNoEcho K snap → r3 = 0) ∧ toInt32 r4 = 2)) ∧
    (FitsInt r4 →
      ((exjl_sendeof K W tty s0).ret = 0 ↔
        (r1 = 0 ∧ r2 = 0 ∧ (¬ CanonNoEcho K snap → r3 = 0) ∧ r4 = 2))) ∧
    (∀ d : Int → σ → Int × σ,
      (exjl_sendeof K { W with tcdrain := d } tty s0).ret = (exjl_sendeof K W tty s0).ret) := by
  have hneg : ¬ ((-1 : Int) = 0) := by decide
  have key : ((r1 = 0 ∧ r2 = 0 ∧ (¬ CanonNoEcho K snap → r3 = 0) ∧ toInt32 r4 = 2) →
        (exjl_sendeof K W tty s0).ret = 0) ∧
      (¬ (r1 = 0 ∧ r2 = 0 ∧ (¬ CanonNoEcho K snap → r3 = 0) ∧ toInt32 r4 = 2) →
        (exjl_sendeof K W tty s0).ret = -1) := by
    by_cases h1 : r1 = 0
    · subst h1
      by_cases h2 : r2 = 0
      · subst h2
        by_cases hc : CanonNoEcho K snap
        · have hn : needs_rewrite K snap = false := (needs_rewrite_eq_false_iff K snap).2 hc
          rw [if_pos hc] at hw
          rw [exjl_sendeof_eq_keep K W tty s0 fd s1 snap s2 hu hg hn]
          by_cases h4 : toInt32 r4 = 2
          · rw [send_seq_full K W fd snap _ s2 r4 s4 hw h4]
            exact ⟨fun _ => rfl, fun hnot => absurd ⟨rfl, rfl, fun h => absurd hc h, h4⟩ hnot⟩
          · rw [send_seq_short K W fd snap _ s2 r4 s4 hw h4]
            exact ⟨fun hall => absurd hall.2.2.2 h4, fun _ => rfl⟩
        · have hn : needs_rewrite K snap = true := (needs_rewrite_eq_true_iff K snap).2 hc
          rw [if_neg hc] at hw
          by_cases h3 : r3 = 0
          · subst h3
            rw [exjl_sendeof_eq_rewrite K W tty s0 fd s1 snap s2 s3 hu hg hn ht]
            by_cases h4 : toInt32 r4 = 2
            · rw [send_seq_full K W fd (force_canon K snap) _ s3 r4 s4 hw h4]
              exact ⟨fun _ => rfl, fun hnot => absurd ⟨rfl, rfl, fun _ => rfl, h4⟩ hnot⟩
            · rw [send_seq_short K W fd (force_canon K snap) _ s3 r4 s4 hw h4]
              exact ⟨fun hall => absurd hall.2.2.2 h4, fun _ => rfl⟩
          · rw [exjl_sendeof_eq_setattr_fail K W tty s0 fd s1 snap s2 r3 s3 hu hg hn ht h3]
            exact ⟨fun hall => absurd (hall.2.2.1 hc) h3, fun _ => rfl⟩
      · rw [exjl_sendeof_eq_getattr_fail K W tty s0 fd s1 r2 snap s2 hu hg h2]
        exact ⟨fun hall => absurd hall.2.1 h2, fun _ => rfl⟩
    · rw [exjl_sendeof_eq_resolver_fail K W tty s0 r1 fd s1 hu h1]
      exact ⟨fun hall => absurd hall.1 h1, fun _ => rfl⟩
  have hiff : (exjl_sendeof K W tty s0).ret = 0 ↔
      (r1 = 0 ∧ r2 = 0 ∧ (¬ CanonNoEcho K snap → r3 = 0) ∧ toInt32 r4 = 2) := by
    constructor
    · intro h0
      by_contra hnot
      rw [key.2 hnot] at h0
      exact hneg h0
    · exact key.1
  refine ⟨?_, hiff, ?_, ?_⟩
  · by_cases hall : r1 = 0 ∧ r2 = 0 ∧ (¬ CanonNoEcho K snap → r3 = 0) ∧ toInt32 r4 = 2
    · exact Or.inl (key.1 hall)
    · exact Or.inr (key.2 hall)
  · intro hf
    rw [hiff, toInt32_of_fits r4 hf]
  · intro d
    unfold exjl_sendeof send_seq
    simp only []
    split_ifs <;> rfl

/-- C9, at a concrete input: the scripted environment on a raw-mode
terminal in which the resolver, `tcgetattr` and `tcsetattr` answer 0,
`write` answers 2 and `tcdrain` answers `-1`; the result is 0, and it stays
0 whatever replaces `tcdrain`. -/
theorem exjl_sendeof_result_witness :
    FitsInt 2 ∧ ¬ CanonNoEcho linuxConsts rawAttrs ∧
    (exjl_sendeof linuxConsts (scriptSys { okScript with drain_ret := -1 }) 7 ()).ret = 0 ∧
    (∀ d : Int → Unit → Int × Unit,
      (exjl_sendeof linuxConsts
          { scriptSys { okScript with drain_ret := -1 } with tcdrain := d } 7 ()).ret
        = (exjl_sendeof linuxConsts (scriptSys { okScript with drain_ret := -1 }) 7 ()).ret) :=
  ⟨by decide, by decide,
    ((exjl_sendeof_result linuxConsts (scriptSys { okScript with drain_ret := -1 }) 7 ()
        0 5 () 0 rawAttrs () 0 () 2 () rfl rfl rfl rfl).2.2.1 (by decide)).2
      ⟨rfl, rfl, fun _ => rfl, rfl⟩,
    (exjl_sendeof_result linuxConsts (scriptSys { okScript with drain_ret := -1 }) 7 ()
        0 5 () 0 rawAttrs () 0 () 2 () rfl rfl rfl rfl).2.2.2⟩

/-- C5 as stated fails: in the scripted environment where every call
succeeds except the final `tcdrain`, which returns `-1`, `exjl_sendeof`
returns 0, not a negative result. -/
theorem exjl_sendeof_drain_failure_returns_zero :
    (exjl_sendeof linuxConsts (scriptSys { okScript with drain_ret := -1 }) 7 ()).trace.getLast?
      = some (Event.tcdrain 5 (-1)) ∧
    (exjl_sendeof linuxConsts (scriptSys { okScript with drain_ret := -1 }) 7 ()).ret = 0 ∧
    ¬ (exjl_sendeof linuxConsts (scriptSys { okScript with drain_ret := -1 }) 7 ()).ret < 0 := by
  decide

/-- C5, amended: `exjl_sendeof` returns 0 exactly when its last call is the
final `tcdrain` (issued once, after everything else), and in that case the
value `tcdrain` returned is whatever the environment answered: it is not
inspected, so a failed drain still yields 0. -/
theorem exjl_sendeof_success_iff_drain_issued {σ : Type} (K : TermiosConsts) (W : Sys σ)
    (tty : Handle) (s0 : σ) :
    ((exjl_sendeof K W tty s0).ret = 0 ↔
      ∃ pre fd r, (exjl_sendeof K W tty s0).trace = pre ++ [Event.tcdrain fd r] ∧
        ∀ e ∈ pre, e.kind ≠ Kind.tcdrain) ∧
    ((exjl_sendeof K W tty s0).ret ≠ 0 →
      (exjl_sendeof K W tty s0).ret = -1 ∧
      ∀ e ∈ (exjl_sendeof K W tty s0).trace, e.kind ≠ Kind.tcdrain) ∧
    (∀ d : Int → σ → Int × σ,
      (exjl_sendeof K { W with tcdrain := d } tty s0).ret = (exjl_sendeof K W tty s0).ret) := by
  have hlast : ∀ (l pre : List Event) (fd r : Int), l = pre ++ [Event.tcdrain fd r] →
      (∀ e ∈ l, e.kind ≠ Kind.tcdrain) → False := by
    intro l pre fd r hl hall
    exact hall (Event.tcdrain fd r) (by rw [hl]; simp) rfl
  refine ⟨?_, ?_, ?_⟩
  · obtain ⟨r1, fd, s1, _, h | ⟨_, r2, snap, s2, _, h | h | ⟨_, _, r3, s3, _, h | h⟩⟩⟩ :=
      exjl_sendeof_cases K W tty s0
    · rw [h.2]
      refine ⟨fun h0 => absurd h0 (by decide : ¬ ((-1 : Int) = 0)), ?_⟩
      rintro ⟨pre, fd', r, hp, _⟩
      exact (hlast _ pre fd' r hp (by simp [Event.kind])).elim
    · rw [h.2]
      refine ⟨fun h0 => absurd h0 (by decide : ¬ ((-1 : Int) = 0)), ?_⟩
      rintro ⟨pre, fd', r, hp, _⟩
      exact (hlast _ pre fd' r hp (by simp [Event.kind])).elim
    · rw [h.2.2]
      obtain ⟨r4, s4, _, h' | h'⟩ := send_seq_cases K W fd snap
        [Event.uv_fileno tty 0 fd, Event.tcgetattr fd 0 snap] s2
      · rw [h'.2]
        refine ⟨fun h0 => absurd h0 (by decide : ¬ ((-1 : Int) = 0)), ?_⟩
        rintro ⟨pre, fd', r, hp, _⟩
        exact (hlast _ pre fd' r hp (by simp [Event.kind])).elim
      · rw [h'.2]
        refine ⟨fun _ => ⟨[Event.uv_fileno tty 0 fd, Event.tcgetattr fd 0 snap,
          Event.write fd [10, snap.c_cc.getD K.VEOF 0 % 256] 2 r4], fd, _, rfl, ?_⟩,
          fun _ => rfl⟩
        simp [Event.kind]
    · rw [h.2]
      refine ⟨fun h0 => absurd h0 (by decide : ¬ ((-1 : Int) = 0)), ?_⟩
      rintro ⟨pre, fd', r, hp, _⟩
      exact (hlast _ pre fd' r hp (by simp [Event.kind])).elim
    · rw [h.2]
      obtain ⟨r4, s4, _, h' | h'⟩ := send_seq_cases K W fd (force_canon K snap)
        [Event.uv_fileno tty 0 fd, Event.tcgetattr fd 0 snap,
          Event.tcsetattr fd K.TCSADRAIN (force_canon K snap) 0] s3
      · rw [h'.2]
        refine ⟨fun h0 => absurd h0 (by decide : ¬ ((-1 : Int) = 0)), ?_⟩
        rintro ⟨pre, fd', r, hp, _⟩
        exact (hlast _ pre fd' r hp (by simp [Event.kind])).elim
      · rw [h'.2]
        refine ⟨fun _ => ⟨[Event.uv_fileno tty 0 fd, Event.tcgetattr fd 0 snap,
          Event.tcsetattr fd K.TCSADRAIN (force_canon K snap) 0,
          Event.write fd [10, (force_canon K snap).c_cc.getD K.VEOF 0 % 256] 2 r4], fd, _,
          rfl, ?_⟩, fun _ => rfl⟩
        simp [Event.kind]
  · obtain ⟨r1, fd, s1, _, h | ⟨_, r2, snap, s2, _, h | h | ⟨_, _, r3, s3, _, h | h⟩⟩⟩ :=
      exjl_sendeof_cases K W tty s0
    · rw [h.2]
      exact fun _ => ⟨rfl, by simp [Event.kind]⟩
    · rw [h.2]
      exact fun _ => ⟨rfl, by simp [Event.kind]⟩
    · rw [h.2.2]
      obtain ⟨r4, s4, _, h' | h'⟩ := send_seq_cases K W fd snap
        [Event.uv_fileno tty 0 fd, Event.tcgetattr fd 0 snap] s2
      · rw [h'.2]
        exact fun _ => ⟨rfl, by simp [Event.kind]⟩
      · rw [h'.2]
        exact fun hne => absurd rfl hne
    · rw [h.2]
      exact fun _ => ⟨rfl, by simp [Event.kind]⟩
    · rw [h.2]
      obtain ⟨r4, s4, _, h' | h'⟩ := send_seq_cases K W fd (force_canon K snap)
        [Event.uv_fileno tty 0 fd, Event.tcgetattr fd 0 snap,
          Event.tcsetattr fd K.TCSADRAIN (force_canon K snap) 0] s3
      · rw [h'.2]
        exact fun _ => ⟨rfl, by simp [Event.kind]⟩
      · rw [h'.2]
        exact fun hne => absurd rfl hne
  · intro d
    unfold exjl_sendeof send_seq
    simp only []
    split_ifs <;> rfl

/-- C5 amended, at a concrete input: the run whose `tcdrain` answers `-1`
returns 0 and ends with that `tcdrain`. -/
theorem exjl_sendeof_success_iff_drain_issued_witness :
    (exjl_sendeof linuxConsts (scriptSys { okScript with drain_ret := -1 }) 7 ()).ret = 0 ∧
    ∃ pre fd r,
      (exjl_sendeof linuxConsts (scriptSys { okScript with drain_ret := -1 }) 7 ()).trace
        = pre ++ [Event.tcdrain fd r] ∧
      ∀ e ∈ pre, e.kind ≠ Kind.tcdrain :=
  ⟨by decide,
    (exjl_sendeof_success_iff_drain_issued linuxConsts
      (scriptSys { okScript with drain_ret := -1 }) 7 ()).1.1 (by decide)⟩

/-- C8: a failed step ends the run.  With the `write` result fitting the
`int` it is stored in, whenever the trace of `exjl_sendeof` contains a
`tcsetattr` that returned nonzero or a `write` that returned anything but 2,
the result is `-1` (negative) and that call is the last one issued: nothing
follows it, so no `write` after a failed `tcsetattr`, no second `write`, no
`tcdrain` after a short write and no further `tcsetattr`. -/
theorem exjl_sendeof_failed_step_is_last {σ : Type} (K : TermiosConsts) (W : Sys σ)
    (tty : Handle) (s0 : σ)
    (hfit : ∀ e ∈ (exjl_sendeof K W tty s0).trace, e.kind = Kind.write → FitsInt e.ret)
    (pre post : List Event) (e : Event)
    (htr : (exjl_sendeof K W tty s0).trace = pre ++ e :: post)
    (hfail : e.failedStep) :
    (exjl_sendeof K W tty s0).ret = -1 ∧ (exjl_sendeof K W tty s0).ret < 0 ∧ post = [] := by
  have hmain : (∀ x ∈ (exjl_sendeof K W tty s0).trace.dropLast, ¬ x.failedStep) ∧
      ((exjl_sendeof K W tty s0).ret = -1 ∨
        ∀ x ∈ (exjl_sendeof K W tty s0).trace, ¬ x.failedStep) := by
    obtain ⟨r1, fd, s1, _, h | ⟨_, r2, snap, s2, _, h | h | ⟨_, _, r3, s3, _, h | h⟩⟩⟩ :=
      exjl_sendeof_cases K W tty s0
    · rw [h.2]
      exact ⟨by simp [Event.failedStep, Event.kind], Or.inl rfl⟩
    · rw [h.2]
      exact ⟨by simp [Event.failedStep, Event.kind], Or.inl rfl⟩
    · rw [h.2.2] at hfit ⊢
      obtain ⟨r4, s4, _, h' | h'⟩ := send_seq_cases K W fd snap
        [Event.uv_fileno tty 0 fd, Event.tcgetattr fd 0 snap] s2
      · rw [h'.2]
        exact ⟨by simp [Event.failedStep, Event.kind], Or.inl rfl⟩
      · rw [h'.2] at hfit ⊢
        have hf : FitsInt r4 :=
          hfit (Event.write fd [10, snap.c_cc.getD K.VEOF 0 % 256] 2 r4) (by simp) rfl
        have heq : r4 = 2 := toInt32_eq_two_fits r4 h'.1 hf
        exact ⟨by simp [Event.failedStep, Event.kind, Event.ret, heq],
          Or.inr (by simp [Event.failedStep, Event.kind, Event.ret, heq])⟩
    · rw [h.2]
      exact ⟨by simp [Event.failedStep, Event.kind], Or.inl rfl⟩
    · rw [h.2] at hfit ⊢
      obtain ⟨r4, s4, _, h' | h'⟩ := send_seq_cases K W fd (force_canon K snap)
        [Event.uv_fileno tty 0 fd, Event.tcgetattr fd 0 snap,
          Event.tcsetattr fd K.TCSADRAIN (force_canon K snap) 0] s3
      · rw [h'.2]
        exact ⟨by simp [Event.failedStep, Event.kind, Event.ret], Or.inl rfl⟩
      · rw [h'.2] at hfit ⊢
        have hf : FitsInt r4 :=
          hfit (Event.write fd [10, (force_canon K snap).c_cc.getD K.VEOF 0 % 256] 2 r4)
            (by simp) rfl
        have heq : r4 = 2 := toInt32_eq_two_fits r4 h'.1 hf
        exact ⟨by simp [Event.failedStep, Event.kind, Event.ret, heq],
          Or.inr (by simp [Event.failedStep, Event.kind, Event.ret, heq])⟩
  have hpost : post = [] :=
    post_nil_of_dropLast Event.failedStep _ pre post e htr hmain.1 hfail
  have hret : (exjl_sendeof K W tty s0).ret = -1 := by
    rcases hmain.2 with h | h
    · exact h
    · exact absurd hfail (h e (by rw [htr]; simp))
  refine ⟨hret, ?_, hpost⟩
  rw [hret]
  decide

/-- C8, at a concrete input: the flags are rewritten, then `write` returns 1
(a short write); the run stops there with `-1`. -/
theorem exjl_sendeof_failed_step_is_last_witness :
    (∀ e ∈ (exjl_sendeof linuxConsts (scriptSys { okScript with write_ret := 1 }) 7 ()).trace,
      e.kind = Kind.write → FitsInt e.ret) ∧
    (exjl_sendeof linuxConsts (scriptSys { okScript with write_ret := 1 }) 7 ()).trace
      = [Event.uv_fileno 7 0 5, Event.tcgetattr 5 0 rawAttrs,
          Event.tcsetattr 5 1 { rawAttrs with c_lflag := 35378 } 0]
        ++ Event.write 5 [10, 26] 2 1 :: [] ∧
    (Event.write 5 [10, 26] 2 1).failedStep ∧
    ((exjl_sendeof linuxConsts (scriptSys { okScript with write_ret := 1 }) 7 ()).ret = -1 ∧
      (exjl_sendeof linuxConsts (scriptSys { okScript with write_ret := 1 }) 7 ()).ret < 0 ∧
      ([] : List Event) = []) :=
  ⟨by decide, by decide, by decide,
    exjl_sendeof_failed_step_is_last linuxConsts (scriptSys { okScript with write_ret := 1 }) 7 ()
      (by decide)
      [Event.uv_fileno 7 0 5, Event.tcgetattr 5 0 rawAttrs,
        Event.tcsetattr 5 1 { rawAttrs with c_lflag := 35378 } 0]
      [] (Event.write 5 [10, 26] 2 1) (by decide) (by decide)⟩

/-- C4: the attributes `exjl_sendeof` hands to `tcsetattr` are the snapshot
read by `tcgetattr` with only `c_lflag` modified, and in `c_lflag` every bit
that belongs to none of `ICANON`, `ECHO`, `ECHONL` keeps its value; the
other flag words, the whole control-character table (`VEOF` included) and
the remaining members are equal to the snapshot's.  In any environment that
keeps attributes as `AttrModel` describes, a run that issues no `tcsetattr`
leaves all attributes unchanged, and after a successful run that issued one
the descriptor's attributes are the ones handed to it. -/
theorem exjl_sendeof_attributes_frame {σ : Type} (K : TermiosConsts) (W : Sys σ)
    (tty : Handle) (s0 : σ) (r1 fd : Int) (s1 : σ) (r2 : Int) (snap : termios) (s2 : σ)
    (hu : W.uv_fileno tty s0 = (r1, fd, s1))
    (hg : W.tcgetattr fd s1 = (r2, snap, s2))
    (hl : snap.c_lflag < 2 ^ K.tcflag_bits) :
    (∀ sfd act buf r, Event.tcsetattr sfd act buf r ∈ (exjl_sendeof K W tty s0).trace →
      sfd = fd ∧ buf.c_iflag = snap.c_iflag ∧ buf.c_oflag = snap.c_oflag ∧
      buf.c_cflag = snap.c_cflag ∧ buf.c_cc = snap.c_cc ∧ buf.other = snap.other ∧
      (∀ i, K.ICANON.testBit i = false → K.ECHO.testBit i = false →
        K.ECHONL.testBit i = false → buf.c_lflag.testBit i = snap.c_lflag.testBit i)) ∧
    (∀ attrs : σ → Int → Option termios, AttrModel W attrs →
      ((∀ e ∈ (exjl_sendeof K W tty s0).trace, e.kind ≠ Kind.tcsetattr) →
        attrs (exjl_sendeof K W tty s0).state = attrs s0) ∧
      ((exjl_sendeof K W tty s0).ret = 0 →
        ∀ sfd act buf r, Event.tcsetattr sfd act buf r ∈ (exjl_sendeof K W tty s0).trace →
          attrs (exjl_sendeof K W tty s0).state fd = some buf)) := by
  have hforce : ∀ sfd act buf r,
      Event.tcsetattr sfd act buf r = Event.tcsetattr fd K.TCSADRAIN (force_canon K snap) r →
      sfd = fd ∧ buf.c_iflag = snap.c_iflag ∧ buf.c_oflag = snap.c_oflag ∧
      buf.c_cflag = snap.c_cflag ∧ buf.c_cc = snap.c_cc ∧ buf.other = snap.other ∧
      (∀ i, K.ICANON.testBit i = false → K.ECHO.testBit i = false →
        K.ECHONL.testBit i = false → buf.c_lflag.testBit i = snap.c_lflag.testBit i) := by
    intro sfd act buf r h
    injection h with h1 h2 h3 h4
    subst h1 h3
    exact ⟨rfl, rfl, rfl, rfl, rfl, rfl,
      fun i hi he hn => testBit_force_lflag_other K snap.c_lflag i hl hi he hn⟩
  have hs1 : ∀ attrs : σ → Int → Option termios, AttrModel W attrs → attrs s1 = attrs s0 := by
    intro attrs M
    have h := M.uv_fileno_frame tty s0
    rw [hu] at h
    exact h
  have hs2 : ∀ attrs : σ → Int → Option termios, AttrModel W attrs → attrs s2 = attrs s0 := by
    intro attrs M
    have h := M.tcgetattr_frame fd s1
    rw [hg] at h
    exact h.trans (hs1 attrs M)
  by_cases h1 : r1 = 0
  · subst h1
    by_cases h2 : r2 = 0
    · subst h2
      cases hn : needs_rewrite K snap
      · rw [exjl_sendeof_eq_keep K W tty s0 fd s1 snap s2 hu hg hn]
        have hno : ∀ sfd act buf r, Event.tcsetattr sfd act buf r ∉
            (send_seq K W fd snap [Event.uv_fileno tty 0 fd, Event.tcgetattr fd 0 snap] s2).trace := by
          intro sfd act buf r hmem
          rcases mem_send_seq_trace K W fd snap _ s2 _ hmem with h | ⟨r', h⟩ | ⟨r', h⟩
          · simp at h
          · exact Event.noConfusion h
          · exact Event.noConfusion h
        refine ⟨fun sfd act buf r hmem => absurd hmem (hno sfd act buf r), ?_⟩
        intro attrs M
        refine ⟨fun _ => ?_, fun _ sfd act buf r hmem => absurd hmem (hno sfd act buf r)⟩
        exact (attrs_send_seq K W attrs M fd snap _ s2).trans (hs2 attrs M)
      · generalize htd : W.tcsetattr fd K.TCSADRAIN (force_canon K snap) s2 = t
        obtain ⟨r3, s3⟩ := t
        by_cases h3 : r3 = 0
        · subst h3
          rw [exjl_sendeof_eq_rewrite K W tty s0 fd s1 snap s2 s3 hu hg hn htd]
          have hmem : ∀ sfd act buf r, Event.tcsetattr sfd act buf r ∈
              (send_seq K W fd (force_canon K snap)
                [Event.uv_fileno tty 0 fd, Event.tcgetattr fd 0 snap,
                  Event.tcsetattr fd K.TCSADRAIN (force_canon K snap) 0] s3).trace →
              Event.tcsetattr sfd act buf r
                = Event.tcsetattr fd K.TCSADRAIN (force_canon K snap) 0 := by
            intro sfd act buf r hm
            rcases mem_send_seq_trace K W fd (force_canon K snap) _ s3 _ hm with
              h | ⟨r', h⟩ | ⟨r', h⟩
            · simp only [List.mem_cons, List.mem_singleton, List.not_mem_nil, or_false] at h
              rcases h with h | h | h
              · exact Event.noConfusion h
              · exact Event.noConfusion h
              · exact h
            · exact Event.noConfusion h
            · exact Event.noConfusion h
          refine ⟨fun sfd act buf r hm => ?_, ?_⟩
          · have he := hmem sfd act buf r hm
            have hr : r = 0 := by injection he
            subst hr
            exact hforce sfd act buf 0 he
          · intro attrs M
            refine ⟨fun hnone => ?_, fun _ sfd act buf r hm => ?_⟩
            · exfalso
              have hin : Event.tcsetattr fd K.TCSADRAIN (force_canon K snap) 0 ∈
                  (send_seq K W fd (force_canon K snap)
                    [Event.uv_fileno tty 0 fd, Event.tcgetattr fd 0 snap,
                      Event.tcsetattr fd K.TCSADRAIN (force_canon K snap) 0] s3).trace := by
                obtain ⟨r4, s4, _, h | h⟩ := send_seq_cases K W fd (force_canon K snap)
                  [Event.uv_fileno tty 0 fd, Event.tcgetattr fd 0 snap,
                    Event.tcsetattr fd K.TCSADRAIN (force_canon K snap) 0] s3
                · rw [h.2]; simp
                · rw [h.2]; simp
              exact hnone _ hin rfl
            · have he := hmem sfd act buf r hm
              have hb : buf = force_canon K snap := by injection he
              rw [attrs_send_seq K W attrs M fd (force_canon K snap) _ s3, hb]
              have ha := M.tcsetattr_applies fd K.TCSADRAIN (force_canon K snap) s2
              rw [htd] at ha
              exact ha rfl
        · rw [exjl_sendeof_eq_setattr_fail K W tty s0 fd s1 snap s2 r3 s3 hu hg hn htd h3]
          refine ⟨fun sfd act buf r hm => ?_, ?_⟩
          · simp only [List.mem_cons, List.mem_singleton, List.not_mem_nil, or_false] at hm
            rcases hm with h | h | h
            · exact Event.noConfusion h
            · exact Event.noConfusion h
            · have hr : r = r3 := by injection h
              subst hr
              exact hforce sfd act buf r h
          · intro attrs M
            refine ⟨fun hnone => ?_, fun h0 => absurd h0 (by decide : ¬ ((-1 : Int) = 0))⟩
            exact absurd rfl
              (hnone (Event.tcsetattr fd K.TCSADRAIN (force_canon K snap) r3) (by simp))
    · rw [exjl_sendeof_eq_getattr_fail K W tty s0 fd s1 r2 snap s2 hu hg h2]
      refine ⟨fun sfd act buf r hm => ?_, ?_⟩
      · simp at hm
      · intro attrs M
        exact ⟨fun _ => hs2 attrs M, fun h0 => absurd h0 (by decide : ¬ ((-1 : Int) = 0))⟩
  · rw [exjl_sendeof_eq_resolver_fail K W tty s0 r1 fd s1 hu h1]
    refine ⟨fun sfd act buf r hm => ?_, ?_⟩
    · simp at hm
    · intro attrs M
      exact ⟨fun _ => hs1 attrs M, fun h0 => absurd h0 (by decide : ¬ ((-1 : Int) = 0))⟩

/-- C4, at a concrete input: the reference kernel with a raw-mode pty master
behind handle 7.  The call succeeds, one `tcsetattr` is issued, and the
terminal ends with the snapshot's attributes except for `c_lflag`, where
only the `ICANON` bit changed (35376 to 35378). -/
theorem exjl_sendeof_attributes_frame_witness :
    rawAttrs.c_lflag < 2 ^ linuxConsts.tcflag_bits ∧
    (exjl_sendeof linuxConsts (kernelSys linuxConsts) 7 ptyKernel).ret = 0 ∧
    Event.tcsetattr 5 1 { rawAttrs with c_lflag := 35378 } 0
      ∈ (exjl_sendeof linuxConsts (kernelSys linuxConsts) 7 ptyKernel).trace ∧
    ((5 : Int) = 5 ∧
      ({ rawAttrs with c_lflag := 35378 } : termios).c_iflag = rawAttrs.c_iflag ∧
      ({ rawAttrs with c_lflag := 35378 } : termios).c_oflag = rawAttrs.c_oflag ∧
      ({ rawAttrs with c_lflag := 35378 } : termios).c_cflag = rawAttrs.c_cflag ∧
      ({ rawAttrs with c_lflag := 35378 } : termios).c_cc = rawAttrs.c_cc ∧
      ({ rawAttrs with c_lflag := 35378 } : termios).other = rawAttrs.other ∧
      (∀ i, linuxConsts.ICANON.testBit i = false → linuxConsts.ECHO.testBit i = false →
        linuxConsts.ECHONL.testBit i = false →
        ({ rawAttrs with c_lflag := 35378 } : termios).c_lflag.testBit i
          = rawAttrs.c_lflag.testBit i)) ∧
    (exjl_sendeof linuxConsts (kernelSys linuxConsts) 7 ptyKernel).state.attrsOf 5
      = some { rawAttrs with c_lflag := 35378 } :=
  ⟨by decide, by decide, by decide,
    (exjl_sendeof_attributes_frame linuxConsts (kernelSys linuxConsts) 7 ptyKernel 0 5
      ptyKernel 0 rawAttrs ptyKernel rfl rfl (by decide)).1 5 1 _ 0 (by decide),
    ((exjl_sendeof_attributes_frame linuxConsts (kernelSys linuxConsts) 7 ptyKernel 0 5
      ptyKernel 0 rawAttrs ptyKernel rfl rfl (by decide)).2 Kernel.attrsOf
        (kernelSys_attrModel linuxConsts)).2 (by decide) 5 1 _ 0 (by decide)⟩

/-- C10: `exjl_set_cloexec` issues exactly one call, `ioctl(fd, FIOCLEX)`,
returns its result unchanged and leaves the state that call left.  Over the
reference kernel, where `FIOCLEX` sets the close-on-exec flag of an open
descriptor, it is idempotent: a second call returns the same value and
leaves the same kernel state as the first; the first call changes nothing
but that flag of that descriptor. -/
theorem exjl_set_cloexec_single_ioctl_idempotent :
    (∀ (σ : Type) (K : TermiosConsts) (W : Sys σ) (fd : Int) (s : σ),
      (exjl_set_cloexec K W fd s).ret = (W.ioctl fd K.FIOCLEX s).1 ∧
      (exjl_set_cloexec K W fd s).trace
        = [Event.ioctl fd K.FIOCLEX (W.ioctl fd K.FIOCLEX s).1] ∧
      (exjl_set_cloexec K W fd s).state = (W.ioctl fd K.FIOCLEX s).2) ∧
    (∀ (K : TermiosConsts) (k : Kernel) (fd : Int),
      (exjl_set_cloexec K (kernelSys K) fd
          (exjl_set_cloexec K (kernelSys K) fd k).state).state
        = (exjl_set_cloexec K (kernelSys K) fd k).state ∧
      (exjl_set_cloexec K (kernelSys K) fd
          (exjl_set_cloexec K (kernelSys K) fd k).state).ret
        = (exjl_set_cloexec K (kernelSys K) fd k).ret ∧
      (∀ f, k.fds fd = some f →
        (exjl_set_cloexec K (kernelSys K) fd k).ret = 0 ∧
        (exjl_set_cloexec K (kernelSys K) fd k).state.fds fd
          = some { f with cloexec := true }) ∧
      (k.fds fd = none →
        (exjl_set_cloexec K (kernelSys K) fd k).ret = -1 ∧
        (exjl_set_cloexec K (kernelSys K) fd k).state = k) ∧
      (exjl_set_cloexec K (kernelSys K) fd k).state.handles = k.handles ∧
      (∀ fd1, fd1 ≠ fd →
        (exjl_set_cloexec K (kernelSys K) fd k).state.fds fd1 = k.fds fd1)) := by
  refine ⟨fun σ K W fd s => ⟨rfl, rfl, rfl⟩, ?_⟩
  intro K k fd
  cases hf : k.fds fd with
  | none =>
    have h1 : exjl_set_cloexec K (kernelSys K) fd k
        = { ret := -1, trace := [Event.ioctl fd K.FIOCLEX (-1)], state := k } := by
      simp [exjl_set_cloexec, kernelSys, hf]
    rw [h1]
    dsimp only
    rw [h1]
    refine ⟨rfl, rfl, ?_, fun _ => ⟨rfl, rfl⟩, rfl, fun _ _ => rfl⟩
    intro f hf1
    exact Option.noConfusion hf1
  | some f =>
    have h1 : exjl_set_cloexec K (kernelSys K) fd k
        = { ret := 0, trace := [Event.ioctl fd K.FIOCLEX 0],
            state := { k with fds := Function.update k.fds fd (some { f with cloexec := true }) } } := by
      simp [exjl_set_cloexec, kernelSys, hf]
    have h2 : exjl_set_cloexec K (kernelSys K) fd
          { k with fds := Function.update k.fds fd (some { f with cloexec := true }) }
        = { ret := 0, trace := [Event.ioctl fd K.FIOCLEX 0],
            state := { k with fds := Function.update k.fds fd (some { f with cloexec := true }) } } := by
      simp [exjl_set_cloexec, kernelSys]
    rw [h1]
    dsimp only
    rw [h2]
    refine ⟨rfl, rfl, ?_, ?_, rfl, ?_⟩
    · intro f1 hf1
      have hff : f = f1 := Option.some.inj hf1
      subst hff
      exact ⟨rfl, by simp⟩
    · intro hnone
      exact Option.noConfusion hnone
    · intro fd1 hne
      simp [Function.update, hne]

/-- C10, at a concrete input: descriptor 5 of the reference kernel, open
without close-on-exec; the call returns 0 and the flag is set. -/
theorem exjl_set_cloexec_single_ioctl_idempotent_witness :
    ptyKernel.fds 5 = some { cloexec := false, attrs := some rawAttrs, data := [] } ∧
    (exjl_set_cloexec linuxConsts (kernelSys linuxConsts) 5 ptyKernel).ret = 0 ∧
    (exjl_set_cloexec linuxConsts (kernelSys linuxConsts) 5 ptyKernel).state.fds 5
      = some { cloexec := true, attrs := some rawAttrs, data := [] } :=
  ⟨rfl,
    (exjl_set_cloexec_single_ioctl_idempotent.2 linuxConsts ptyKernel 5).2.2.1
      { cloexec := false, attrs := some rawAttrs, data := [] } rfl⟩

end Exjl
